import Mathlib

/-!
Shallow embedding of the ScratchABlock IR core (`src/core.py`): the
expression model, condition algebra, instruction model, basic blocks and
the debug dump protocol, together with theorems settling the frozen
claims about them.

Modelling conventions:
* Python strings are `String`, Python ints are `Int`/`Nat`.
* Code that can raise (KeyError, IndexError, AssertionError, TypeError)
  is embedded as `Option`-returning functions; `none` marks the raise.
* Python falls back to object identity for classes that define no
  `__eq__` (here: `SFUNC`); identity is modelled by an allocation id
  field `oid` carried by `SFUNC` values (distinct live objects have
  distinct ids).
* Instruction annotation values (the `comments` dict) are modelled by
  their rendered text, since the core only ever feeds them to `str`:
  `str(value)` and `repr(value)` of an annotation value are the stored
  string itself.
* Characters are assumed ASCII so that Python's `str.isdigit` agrees
  with the regex digit class `[0-9]` used by `natural_sort_key`.
-/

namespace SAB

/-! ## Natural sort (`natural_sort_key`, core.py lines 5-7) -/

/-- One element of a natural-sort key: a non-digit chunk kept as text or
a digit run converted to a number (`int(x) if x.isdigit() else x`). -/
inductive NatKeyElem where
  | txt (s : String)
  | num (n : Nat)
deriving DecidableEq

/-- Numeric value of a run of decimal digit characters (`int(x)`). -/
def digitsToNat (cs : List Char) : Nat :=
  cs.foldl (fun a c => a * 10 + (c.toNat - 48)) 0

/-- Group a character list into maximal runs of equal digit-ness,
mirroring what `re.split("([0-9]+)", s)` separates. -/
def runsAux : List Char → List (Bool × List Char)
  | [] => []
  | c :: cs =>
    match runsAux cs with
    | (b, run) :: rest =>
      if c.isDigit == b then (b, c :: run) :: rest
      else (c.isDigit, [c]) :: (b, run) :: rest
    | [] => [(c.isDigit, [c])]

/-- Turn one run into a key element. -/
def elemOfRun (r : Bool × List Char) : NatKeyElem :=
  if r.1 then .num (digitsToNat r.2) else .txt (String.mk r.2)

/-- `natural_sort_key` (core.py lines 5-7): split the string at maximal
digit runs, keeping them; `re.split` with a capturing group yields an
alternating list that starts and ends with a (possibly empty) non-digit
chunk; digit runs become integers. -/
def natKey (s : String) : List NatKeyElem :=
  let rs := runsAux s.data
  let rs1 := match rs with
    | (true, _) :: _ => (false, ([] : List Char)) :: rs
    | _ => rs
  let rs2 := match rs1.getLast? with
    | some (true, _) => rs1 ++ [(false, ([] : List Char))]
    | _ => rs1
  match rs2 with
  | [] => [.txt ""]
  | l => l.map elemOfRun

/-- Python `==` on key elements: same-type comparison, `int == str` is
`False` (not an error). -/
def elemEqB : NatKeyElem → NatKeyElem → Bool
  | .txt a, .txt b => a == b
  | .num a, .num b => a == b
  | _, _ => false

/-- Python `<` on key elements: comparing `int` with `str` raises
`TypeError`, modelled as `none`. -/
def elemLtB : NatKeyElem → NatKeyElem → Option Bool
  | .txt a, .txt b => some (decide (a.data < b.data))
  | .num a, .num b => some (decide (a < b))
  | _, _ => none

/-- Python list `<`: lexicographic; scan for the first differing pair
(using `==`), compare it with `<` (which may raise), else the shorter
list is smaller. -/
def pyListLt : List NatKeyElem → List NatKeyElem → Option Bool
  | [], [] => some false
  | [], _ :: _ => some true
  | _ :: _, [] => some false
  | a :: as, b :: bs => if elemEqB a b then pyListLt as bs else elemLtB a b

/-! ## Expression model (core.py lines 28-142) -/

/-- The five expression variants.  Fields follow each Python class's
`__init__`; every variant additionally carries the `comment` tag
(class attribute of `SimpleExpr`, default `""`).  `SFUNC` carries `oid`,
the modelled object identity (it defines no `__eq__`/`__hash__`, so
Python compares such objects by identity). -/
inductive Expr where
  | REG (name : String) (comment : String)
  | VALUE (val : Int) (base : Nat) (comment : String)
  | ADDR (addr : String) (comment : String)
  | MEM (type : String) (base : Expr) (offset : Int) (comment : String)
  | SFUNC (name : String) (comment : String) (oid : Nat)
deriving DecidableEq

/-- `type(self).__name__` for an expression. -/
def variantName : Expr → String
  | .REG .. => "REG"
  | .VALUE .. => "VALUE"
  | .ADDR .. => "ADDR"
  | .MEM .. => "MEM"
  | .SFUNC .. => "SFUNC"

/-- Python `==` on expressions.  `REG`, `VALUE`, `ADDR`, `MEM` each
define `__eq__` guarded by `type(self) == type(other)`; `VALUE.__eq__`
compares only `val` (core.py lines 81-82); `MEM.__eq__` compares type,
base and offset (lines 116-118, base recursively); `SFUNC` defines no
`__eq__`, so Python falls back to object identity (modelled as `oid`
equality).  Any cross-variant comparison is `False` (directly or via the
reflected operand). -/
def pyEq : Expr → Expr → Bool
  | .REG n _, .REG n' _ => n == n'
  | .VALUE v _ _, .VALUE v' _ _ => v == v'
  | .ADDR a _, .ADDR a' _ => a == a'
  | .MEM t b o _, .MEM t' b' o' _ => t == t' && pyEq b b' && o == o'
  | .SFUNC _ _ i, .SFUNC _ _ i' => i == i'
  | _, _ => false

/-- Python `<` on expressions.  Only `REG` (core.py lines 51-57) and
`MEM` (lines 120-123) define `__lt__`; ordering anything else raises
`TypeError` (`none`).  `REG` against `REG` compares natural-sort keys of
the names; against another variant it compares class names.  `MEM`
against `MEM` compares the tuples `(base, offset)` (Python tuple `<`:
`==` on the heads first, then `<`); against another variant it compares
class names. -/
def pyLt : Expr → Expr → Option Bool
  | .REG n _, .REG n' _ => pyListLt (natKey n) (natKey n')
  | .REG _ _, e => some (decide ("REG".data < (variantName e).data))
  | .MEM _ b o _, .MEM _ b' o' _ =>
    if pyEq b b' then some (decide (o < o')) else pyLt b b'
  | .MEM _ _ _ _, e => some (decide ("MEM".data < (variantName e).data))
  | _, _ => none

/-- Hex rendering of a Python int by `"%x"`: lowercase magnitude with a
leading minus for negatives. -/
def intHex (v : Int) : String :=
  if v < 0 then "-" ++ String.mk (Nat.toDigits 16 (-v).toNat)
  else String.mk (Nat.toDigits 16 v.toNat)

/-- `str()` of an expression (each class's `__str__`; `MEM` has no
`__str__` so `str` falls back to its `__repr__`, core.py lines 110-114).
`SFUNC.__str__` (line 141-142) does NOT prepend the comment tag. -/
def exprStr : Expr → String
  | .REG n c => c ++ "$" ++ n
  | .VALUE v b c =>
    c ++ (if b == 16 then "0x" ++ intHex v else toString v)
  | .ADDR a c => c ++ a
  | .MEM t b o c =>
    if o == 0 then c ++ "*(" ++ t ++ "*)" ++ exprStr b
    else c ++ "*(" ++ t ++ "*)(" ++ exprStr b ++ " + 0x" ++ intHex o ++ ")"
  | .SFUNC n _ _ => n

/-- `repr()` of an expression (each class's `__repr__`).  Note that
`MEM.__repr__` interpolates its base with `%s`, i.e. `str(base)`, and
`SFUNC.__repr__` (core.py line 138-139) does NOT prepend the comment
tag. -/
def exprRepr : Expr → String
  | .REG n c => c ++ "REG(" ++ n ++ ")"
  | .VALUE v _ c => c ++ "VALUE(0x" ++ intHex v ++ ")"
  | .ADDR a c => c ++ "ADDR(" ++ a ++ ")"
  | .MEM t b o c =>
    if o == 0 then c ++ "*(" ++ t ++ "*)" ++ exprStr b
    else c ++ "*(" ++ t ++ "*)(" ++ exprStr b ++ " + 0x" ++ intHex o ++ ")"
  | .SFUNC n _ _ => "(SFUNC)" ++ n

/-! ## String-prefix helper -/

/-- `strBegins pre s` holds when `s` starts with the text `pre`. -/
def strBegins (pre s : String) : Bool :=
  pre.data.isPrefixOf s.data

theorem isPrefixOf_append_self (l t : List Char) :
    l.isPrefixOf (l ++ t) = true := by
  induction l with
  | nil => simp [List.isPrefixOf]
  | cons a as ih => simp [List.isPrefixOf, ih]

theorem strBegins_append (p t : String) : strBegins p (p ++ t) = true := by
  have h : (p ++ t).data = p.data ++ t.data := rfl
  simp [strBegins, h, isPrefixOf_append_self]

/-! ## Condition algebra (core.py lines 210-263) -/

mutual

/-- A boolean condition: `SimpleCond(arg1, op, arg2)` or
`CompoundCond(l)` where `l` is the ordered sequence alternating
sub-conditions and connective strings. -/
inductive Cond where
  | simple (arg1 : Expr) (op : String) (arg2 : Expr) : Cond
  | compound (args : CList) : Cond

/-- An element of a compound condition's list: either a connective
string (`isinstance(x, str)`) or a sub-condition. -/
inductive CItem where
  | conn (s : String) : CItem
  | cond (c : Cond) : CItem

/-- The list of a compound condition (a specialised list type so that
the mutual recursion stays structural). -/
inductive CList where
  | nil : CList
  | cons (hd : CItem) (tl : CList) : CList

end

/-- `SimpleCond.NEG` (core.py lines 212-219): the fixed comparison-
operator negation table; a key outside it raises `KeyError` (`none`). -/
def scNEG : String → Option String
  | "==" => some "!="
  | "!=" => some "=="
  | ">" => some "<="
  | "<" => some ">="
  | ">=" => some "<"
  | "<=" => some ">"
  | _ => none

/-- `CompoundCond.NEG` (core.py lines 241-244): the connective swap
table; a key outside it raises `KeyError` (`none`). -/
def ccNEG : String → Option String
  | "&&" => some "||"
  | "||" => some "&&"
  | _ => none

mutual

/-- `SimpleCond.neg` / `CompoundCond.neg` (core.py lines 226-227 and
252-253): a simple condition keeps its operands and maps the operator
through the table; a compound condition maps each list element —
connective strings through the swap table, sub-conditions recursively
through `neg` — preserving order. -/
def Cond.neg : Cond → Option Cond
  | .simple a1 op a2 =>
    match scNEG op with
    | some op' => some (.simple a1 op' a2)
    | none => none
  | .compound args =>
    match CList.neg args with
    | some l => some (.compound l)
    | none => none

/-- Negate one compound-list element (`self.NEG[x] if isinstance(x, str)
else x.neg()`). -/
def CItem.neg : CItem → Option CItem
  | .conn s =>
    match ccNEG s with
    | some s' => some (.conn s')
    | none => none
  | .cond c =>
    match Cond.neg c with
    | some c' => some (.cond c')
    | none => none

/-- Negate every element of a compound-condition list in order. -/
def CList.neg : CList → Option CList
  | .nil => some .nil
  | .cons x r =>
    match CItem.neg x, CList.neg r with
    | some x', some r' => some (.cons x' r')
    | _, _ => none

end

mutual

/-- A condition is well formed when every comparison operator is in the
`SimpleCond.NEG` table and every connective is in the
`CompoundCond.NEG` table. -/
def Cond.wf : Cond → Bool
  | .simple _ op _ => (scNEG op).isSome
  | .compound args => CList.wf args

def CItem.wf : CItem → Bool
  | .conn s => (ccNEG s).isSome
  | .cond c => Cond.wf c

def CList.wf : CList → Bool
  | .nil => true
  | .cons x r => CItem.wf x && CList.wf r

end

theorem scNEG_invol (op op' : String) (h : scNEG op = some op') :
    scNEG op' = some op := by
  unfold scNEG at h
  split at h <;> simp_all <;> subst h <;> rfl

theorem ccNEG_invol (s s' : String) (h : ccNEG s = some s') :
    ccNEG s' = some s := by
  unfold ccNEG at h
  split at h <;> simp_all <;> subst h <;> rfl

mutual

theorem condNegNeg : ∀ c : Cond, Cond.wf c = true →
    (Cond.neg c).bind Cond.neg = some c
  | .simple a1 op a2, h => by
    have hop : (scNEG op).isSome = true := by simpa [Cond.wf] using h
    obtain ⟨op', hop'⟩ := Option.isSome_iff_exists.mp hop
    simp [Cond.neg, hop', scNEG_invol op op' hop']
  | .compound args, h => by
    have hl := clistNegNeg args (by simpa [Cond.wf] using h)
    cases hx : CList.neg args with
    | none => simp [hx] at hl
    | some l =>
      rw [hx] at hl
      simp only [Option.some_bind] at hl
      simp [Cond.neg, hx, hl]

theorem citemNegNeg : ∀ x : CItem, CItem.wf x = true →
    (CItem.neg x).bind CItem.neg = some x
  | .conn s, h => by
    have hs : (ccNEG s).isSome = true := by simpa [CItem.wf] using h
    obtain ⟨s', hs'⟩ := Option.isSome_iff_exists.mp hs
    simp [CItem.neg, hs', ccNEG_invol s s' hs']
  | .cond c, h => by
    have hc := condNegNeg c (by simpa [CItem.wf] using h)
    cases hx : Cond.neg c with
    | none => simp [hx] at hc
    | some c' =>
      rw [hx] at hc
      simp only [Option.some_bind] at hc
      simp [CItem.neg, hx, hc]

theorem clistNegNeg : ∀ l : CList, CList.wf l = true →
    (CList.neg l).bind CList.neg = some l
  | .nil, _ => by simp [CList.neg]
  | .cons x r, h => by
    have hx := citemNegNeg x (by simp [CList.wf] at h; exact h.1)
    have hr := clistNegNeg r (by simp [CList.wf] at h; exact h.2)
    cases hx1 : CItem.neg x with
    | none => simp [hx1] at hx
    | some x' =>
      cases hr1 : CList.neg r with
      | none => simp [hr1] at hr
      | some r' =>
        rw [hx1] at hx; rw [hr1] at hr
        simp only [Option.some_bind] at hx hr
        cases hx2 : CItem.neg x' with
        | none => simp [hx2] at hx
        | some x'' =>
          cases hr2 : CList.neg r' with
          | none => simp [hr2] at hr
          | some r'' =>
            rw [hx2] at hx; rw [hr2] at hr
            simp only [Option.some_inj] at hx hr
            simp [CList.neg, hx1, hr1, hx2, hr2, hx, hr]

end

/-! ## Instruction model (core.py lines 144-207) -/

/-- One instruction argument: an expression, or (for `LIT` and other
raw passthrough) a plain text token. -/
inductive Arg where
  | expr (e : Expr)
  | txt (s : String)

/-- An instruction (`Inst.__init__`, core.py lines 145-150): optional
destination, operator tag, ordered arguments, optional source address,
and the annotation mapping `comments` (an insertion-ordered dict,
modelled as an association list with unique keys; values modelled by
their rendered text). -/
structure Inst where
  dest : Option Expr
  op : String
  args : List Arg
  addr : Option String
  comments : List (String × String)

/-- Dict lookup on the annotation mapping (`comments[k]` /
`k in comments`). -/
def lookupAnn (k : String) (l : List (String × String)) : Option String :=
  match l.find? (fun p => p.1 == k) with
  | some p => some p.2
  | none => none

/-- Dict `pop(k)` on the annotation mapping: the removed value (if any)
and the remaining mapping. -/
def popAnn (k : String) (l : List (String × String)) :
    Option String × List (String × String) :=
  (lookupAnn k l, l.filter (fun p => p.1 != k))

/-- `str()` of an instruction argument (`"%s" % a` / `str(a)`). -/
def argStr : Arg → String
  | .expr e => exprStr e
  | .txt s => s

/-- `repr()` of an instruction argument (used when a whole argument
list is interpolated, since `str(list)` reprs the elements; `repr` of a
Python string quotes it). -/
def argRepr : Arg → String
  | .expr e => exprRepr e
  | .txt s => String.singleton (Char.ofNat 39) ++ s ++ String.singleton (Char.ofNat 39)

/-- `str()` of the optional destination (`"%s" % self.dest`; `str(None)`
is `"None"`). -/
def optDestStr : Option Expr → String
  | some d => exprStr d
  | none => "None"

/-- Python `==` between the optional destination and an argument
(`self.dest == args[0]`): `None` equals nothing here, an expression
against a text token is `False`, expressions compare with `pyEq`. -/
def pyEqOptArg : Option Expr → Arg → Bool
  | some d, .expr e => pyEq d e
  | _, _ => false

/-- `"%s" % self.args`: `str` of a Python list reprs each element. -/
def pyReprArgList (l : List Arg) : String :=
  "[" ++ String.intercalate ", " (l.map argRepr) ++ "]"

/-- `repr()` of the annotation dict: insertion-ordered
`\x7b'key': value-repr, ...\x7d` (values modelled by their rendered
text). -/
def pyReprAnnMap (l : List (String × String)) : String :=
  "\x7b" ++ String.intercalate ", "
    (l.map (fun p =>
      String.singleton (Char.ofNat 39) ++ p.1 ++
      String.singleton (Char.ofNat 39) ++ ": " ++ p.2)) ++ "\x7d"

/-- `Inst.__str__` (core.py lines 170-204), the canonical (pretty)
rendering; `none` models a raised exception (IndexError on a missing
argument, AssertionError on an infix operator without exactly two
arguments, TypeError on `LIT` whose argument is not a text token, or
`op[0]` on an empty operator).  Note the `LIT` early return happens
BEFORE the `org_inst` comment is considered. -/
def Inst.str? (i : Inst) : Option String :=
  if i.op == "LIT" then
    match i.args with
    | .txt t :: _ => some t
    | _ => none
  else
    let s := match lookupAnn "org_inst" i.comments with
      | some v => "// " ++ v ++ "\n"
      | none => ""
    if i.op == "return" then some (s ++ i.op)
    else if i.op == "goto" || i.op == "call" then
      match i.args with
      | a :: _ => some (s ++ i.op ++ " " ++ argStr a)
      | [] => none
    else if i.op == "ASSIGN" then
      match i.args with
      | a :: _ => some (s ++ optDestStr i.dest ++ " = " ++ argStr a)
      | [] => none
    else
      match i.op.data with
      | [] => none
      | c0 :: _ =>
        if !c0.isAlpha then
          match i.args with
          | [a, b] =>
            if pyEqOptArg i.dest a then
              some (s ++ optDestStr i.dest ++ " " ++ i.op ++ "= " ++ argStr b)
            else
              some (s ++ optDestStr i.dest ++ " = " ++ argStr a ++ " " ++
                i.op ++ " " ++ argStr b)
          | _ => none
        else
          let s2 := s ++ (match i.dest with
            | some d => exprStr d ++ " = "
            | none => "")
          if i.op == "SFUNC" then
            match i.args with
            | a0 :: rest =>
              some (s2 ++ argStr a0 ++ "(" ++
                String.intercalate ", " (rest.map argStr) ++ ")")
            | [] => none
          else
            some (s2 ++ i.op ++ "(" ++
              String.intercalate ", " (i.args.map argStr) ++ ")")

/-- `Inst.__repr__` (core.py lines 152-168), the diagnostic rendering,
with the instruction's post-state threaded through explicitly: the
method copies `self.comments` and pops the provenance key only from the
copy, so the returned state is the untouched receiver.  `none` in the
first component models a raised exception. -/
def Inst.reprRun (i : Inst) : Option String × Inst :=
  let copied := i.comments
  let (orgv, remaining) := popAnn "org_inst" copied
  let s := match orgv with
    | some v => "// " ++ v ++ "\n"
    | none => ""
  let s := s ++ (match i.addr with
    | some a => "/*" ++ a ++ "*/ "
    | none => "")
  let body? : Option String :=
    match i.dest with
    | none =>
      if i.op == "LIT" then
        match i.args with
        | .txt t :: _ => some t
        | _ => none
      else some (i.op ++ "(" ++ pyReprArgList i.args ++ ")")
    | some d => some (exprStr d ++ " = " ++ i.op ++ "(" ++ pyReprArgList i.args ++ ")")
  match body? with
  | none => (none, i)
  | some b =>
    let s := s ++ b
    let s := if remaining.isEmpty then s else s ++ " # " ++ pyReprAnnMap remaining
    (some s, i)

/-- Python `==` on optional destinations: `None == None` is `True`,
`None` against an expression is `False`, expressions compare with
`pyEq`. -/
def pyOptEq : Option Expr → Option Expr → Bool
  | none, none => true
  | some d, some d' => pyEq d d'
  | _, _ => false

/-- Python `==` on a single argument pair: an expression against a text
token is `False` either way round. -/
def pyArgEq : Arg → Arg → Bool
  | .expr e, .expr e' => pyEq e e'
  | .txt s, .txt s' => s == s'
  | _, _ => false

/-- Python list `==` on argument lists: equal lengths and elementwise
`==`. -/
def argsEq : List Arg → List Arg → Bool
  | [], [] => true
  | a :: as, b :: bs => pyArgEq a b && argsEq as bs
  | _, _ => false

/-- `Inst.__eq__` (core.py lines 206-207): operator, destination and
arguments only; the address and the annotation mapping take no part. -/
def instEq (i1 i2 : Inst) : Bool :=
  i1.op == i2.op && pyOptEq i1.dest i2.dest && argsEq i1.args i2.args

/-! ## Basic block and debug dump (core.py lines 9-26 and 266-282) -/

/-- `BBlock` (core.py lines 9-15): an address key and the ordered
instruction list. -/
structure BBlock where
  addr : String
  items : List Inst

/-- `BBlock.dump` (core.py lines 20-26) with indent 0 and the canonical
renderer: each instruction on its own line; a raised render aborts the
whole dump. -/
def bblockDump (bb : BBlock) : Option String := do
  let ls ← bb.items.mapM Inst.str?
  return String.join (ls.map (fun l => l ++ "\n"))

/-- Modelled from the spec: the graph container (`graph.py`, not under
`src/`).  Per spec section 3, it maps address keys to node payloads (at
most one `BBlock` plus an optional DFS number), supports predecessor /
successor queries, an optional condition annotation per edge, and
iteration over nodes sorted by the natural-sort order of their
addresses.  The condition annotation is modelled by its rendered text,
as in the spec's dump example. -/
structure GNode where
  addr : String
  val : Option BBlock
  dfsno : Option Nat

/-- Modelled from the spec: graph storage — the node list (native
order) and the edge list `(source, target, optional condition)` in
native successor order. -/
structure Graph where
  nodes : List GNode
  edges : List (String × String × Option String)

/-- Modelled from the spec: `cfg.pred(addr)`, the sources of incoming
edges. -/
def Graph.pred (g : Graph) (a : String) : List String :=
  (g.edges.filter (fun e => e.2.1 == a)).map (fun e => e.1)

/-- Modelled from the spec: `cfg.succ(addr)`, the targets of outgoing
edges in the graph's native successor order. -/
def Graph.succ (g : Graph) (a : String) : List String :=
  (g.edges.filter (fun e => e.1 == a)).map (fun e => e.2.1)

/-- Modelled from the spec: `cfg.edge(a, b).get("cond")`, the optional
condition annotation of an edge. -/
def Graph.edgeCond (g : Graph) (a b : String) : Option String :=
  match g.edges.find? (fun e => e.1 == a && e.2.1 == b) with
  | some e => e.2.2
  | none => none

/-- `natural_sort_key` comparison of two address strings. -/
def natLtB (a b : String) : Bool :=
  pyListLt (natKey a) (natKey b) == some true

/-- Modelled from the spec: stable insertion step for sorting nodes by
the natural-sort order of their addresses. -/
def insertNode (x : GNode) : List GNode → List GNode
  | [] => [x]
  | y :: ys => if natLtB y.addr x.addr then y :: insertNode x ys
    else x :: y :: ys

/-- Modelled from the spec: `cfg.iter_sorted_nodes()` — the nodes
sorted by the natural-sort order of their addresses. -/
def sortNodes : List GNode → List GNode
  | [] => []
  | x :: xs => insertNode x (sortNodes xs)

/-- Lexicographic insertion step for `sorted()` over plain address
strings (Python string `<`). -/
def insertLex (x : String) : List String → List String
  | [] => [x]
  | y :: ys => if decide (y.data < x.data) then y :: insertLex x ys else x :: y :: ys

/-- Python `sorted()` over address strings (code-point lexicographic,
used for the predecessor line). -/
def sortLex : List String → List String
  | [] => []
  | x :: xs => insertLex x (sortLex xs)

/-- `repr()` of a Python string: quoted text. -/
def pyStrRepr (s : String) : String :=
  String.singleton (Char.ofNat 39) ++ s ++ String.singleton (Char.ofNat 39)

/-- `"%s" % sorted(...)`: `str` of a list of strings reprs each
element. -/
def pyReprStrList (l : List String) : String :=
  "[" ++ String.intercalate ", " (l.map pyStrRepr) ++ "]"

/-- `str` of the Exits list: tuples of (optional condition, successor
address); `None` prints bare, strings print repr-quoted. -/
def pyReprExitList (l : List (Option String × String)) : String :=
  "[" ++ String.intercalate ", "
    (l.map (fun p =>
      "(" ++ (match p.1 with
        | some c => pyStrRepr c
        | none => "None") ++ ", " ++ pyStrRepr p.2 ++ ")")) ++ "]"

/-- One node's entry in the debug dump (`dump_bblocks` body, core.py
lines 272-281): predecessor line over the lexicographically sorted
predecessor set, optional DFS-number line, `addr:` label, the block's
instructions via the canonical renderer (or the `    None` placeholder
when the node has no block payload), and the Exits line pairing each
successor, in native successor order, with its edge condition. -/
def nodeEntry (g : Graph) (n : GNode) : Option String := do
  let predLine := "// Predecessors: " ++
    pyReprStrList (sortLex (g.pred n.addr)) ++ "\n"
  let dfsLine := match n.dfsno with
    | some k => "// DFS#: " ++ toString k ++ "\n"
    | none => ""
  let label := n.addr ++ ":\n"
  let body ← match n.val with
    | some bb => bblockDump bb
    | none => some "    None\n"
  let exits := "Exits: " ++
    pyReprExitList ((g.succ n.addr).map
      (fun x => (g.edgeCond n.addr x, x))) ++ "\n"
  return predLine ++ dfsLine ++ label ++ body ++ exits

/-- `dump_bblocks` (core.py lines 266-282): one entry per node, nodes
in natural-sort order of their addresses, consecutive entries separated
by a blank line (the `cnt > 0` newline). -/
def dumpBBlocks (g : Graph) : Option String := do
  let entries ← (sortNodes g.nodes).mapM (nodeEntry g)
  return String.intercalate "\n" entries

/-! ## Helper lemmas -/

theorem isPrefixOf_self (l : List Char) : l.isPrefixOf l = true := by
  induction l with
  | nil => simp [List.isPrefixOf]
  | cons a as ih => simp [List.isPrefixOf, ih]

theorem strBegins_self (p : String) : strBegins p p = true := by
  simp [strBegins, isPrefixOf_self]

theorem strBegins_extend (p s t : String) (h : strBegins p s = true) :
    strBegins p (s ++ t) = true := by
  have hd : (s ++ t).data = s.data ++ t.data := rfl
  have h1 : p.data <+: s.data := by
    simpa [strBegins, List.isPrefixOf_iff_prefix] using h
  have h2 : s.data <+: s.data ++ t.data := List.prefix_append _ _
  simpa [strBegins, hd, List.isPrefixOf_iff_prefix] using h1.trans h2

theorem pyEq_refl (e : Expr) : pyEq e e = true := by
  induction e <;> simp [pyEq, *]

theorem pyOptEq_refl (d : Option Expr) : pyOptEq d d = true := by
  cases d <;> simp [pyOptEq, pyEq_refl]

theorem pyArgEq_refl (a : Arg) : pyArgEq a a = true := by
  cases a <;> simp [pyArgEq, pyEq_refl]

theorem argsEq_refl (l : List Arg) : argsEq l l = true := by
  induction l with
  | nil => rfl
  | cons a as ih => simp [argsEq, pyArgEq_refl, ih]

/-- An operator whose first character is not a letter is none of the
letter-initial special operator tags. -/
theorem op_ne_of_nonalpha (op : String) (c0 : Char) (cs : List Char)
    (hop : op.data = c0 :: cs) (halpha : c0.isAlpha = false) :
    op ≠ "LIT" ∧ op ≠ "return" ∧ op ≠ "goto" ∧ op ≠ "call" ∧
    op ≠ "ASSIGN" ∧ op ≠ "SFUNC" := by
  refine ⟨?_, ?_, ?_, ?_, ?_, ?_⟩ <;>
    (intro h; subst h; simp only [List.cons.injEq] at hop) <;>
    (obtain ⟨h1, -⟩ := hop; rw [← h1] at halpha; exact absurd halpha (by decide))

/-! ## Claim theorems -/

/-- Claim C1 as stated is false at an explicit input: the two `VALUE`
expressions `VALUE(5, base=16)` and `VALUE(5, base=10)` are the same
variant but differ in the display-base field, yet they compare equal,
because `VALUE.__eq__` (core.py lines 81-82) compares only `val`. -/
theorem C1_counterexample :
    pyEq (.VALUE 5 16 "") (.VALUE 5 10 "") = true ∧ (16 : Nat) ≠ 10 :=
  ⟨rfl, by decide⟩

/-- Claim C1 (amended): expression equality is variant-tagged and there
is no cross-variant equality; within a variant, `Register` compares the
name, `Address` the address text, and `MemoryRef` the type, base and
offset — but `Value` compares only the numeric value (the display base
is ignored), and `SyntheticFunc` defines no structural equality at all,
falling back to object identity. -/
theorem C1_expr_equality :
    (∀ n c n' c', pyEq (.REG n c) (.REG n' c') = (n == n')) ∧
    (∀ v b c v' b' c', pyEq (.VALUE v b c) (.VALUE v' b' c') = (v == v')) ∧
    (∀ a c a' c', pyEq (.ADDR a c) (.ADDR a' c') = (a == a')) ∧
    (∀ t b o c t' b' o' c', pyEq (.MEM t b o c) (.MEM t' b' o' c') =
      (t == t' && pyEq b b' && o == o')) ∧
    (∀ n c i n' c' i', pyEq (.SFUNC n c i) (.SFUNC n' c' i') = (i == i')) ∧
    (∀ e1 e2, variantName e1 ≠ variantName e2 → pyEq e1 e2 = false) := by
  refine ⟨fun _ _ _ _ => rfl, fun _ _ _ _ _ _ => rfl, fun _ _ _ _ => rfl,
    fun _ _ _ _ _ _ _ _ => rfl, fun _ _ _ _ _ _ => rfl, fun e1 e2 h => ?_⟩
  cases e1 <;> cases e2 <;> first | exact absurd rfl h | rfl

/-- Witness for C1: no cross-variant equality at a concrete input. -/
theorem C1_expr_equality_witness :
    pyEq (.REG "r1" "") (.VALUE 0 16 "") = false :=
  C1_expr_equality.2.2.2.2.2 (.REG "r1" "") (.VALUE 0 16 "") (by decide)

/-- Claim C2: double negation is the identity on every condition whose
comparison operators and connectives lie in the fixed tables (both
variants, nested compounds included); negation of a simple condition
maps the operator through the involutive table and keeps both operands;
the table swaps `==`/`!=`, `>`/`<=`, `<`/`>=`; compound negation swaps
`&&`/`||` and maps list elements in place, preserving order. -/
theorem C2_neg_involutive :
    (∀ c : Cond, Cond.wf c = true → (Cond.neg c).bind Cond.neg = some c) ∧
    (∀ a1 a2 op op', scNEG op = some op' →
      Cond.neg (.simple a1 op a2) = some (.simple a1 op' a2)) ∧
    (scNEG "==" = some "!=" ∧ scNEG "!=" = some "==" ∧
     scNEG ">" = some "<=" ∧ scNEG "<" = some ">=" ∧
     scNEG ">=" = some "<" ∧ scNEG "<=" = some ">") ∧
    (ccNEG "&&" = some "||" ∧ ccNEG "||" = some "&&") ∧
    (∀ x r x' r', CItem.neg x = some x' → CList.neg r = some r' →
      CList.neg (.cons x r) = some (.cons x' r')) := by
  refine ⟨condNegNeg, fun a1 a2 op op' h => by simp [Cond.neg, h],
    ⟨rfl, rfl, rfl, rfl, rfl, rfl⟩, ⟨rfl, rfl⟩,
    fun x r x' r' hx hr => by simp [CList.neg, hx, hr]⟩

/-- A nested compound condition used as the involution witness:
`(r1 == 0) && ((r2 < 1) || (r3 >= 2))`. -/
def exCond : Cond :=
  .compound (.cons (.cond (.simple (.REG "r1" "") "==" (.VALUE 0 16 "")))
    (.cons (.conn "&&")
      (.cons (.cond (.compound
        (.cons (.cond (.simple (.REG "r2" "") "<" (.VALUE 1 16 "")))
          (.cons (.conn "||")
            (.cons (.cond (.simple (.REG "r3" "") ">=" (.VALUE 2 16 "")))
              .nil)))))
        .nil)))

/-- Witness for C2: double negation at a concrete nested compound. -/
theorem C2_neg_involutive_witness :
    (Cond.neg exCond).bind Cond.neg = some exCond ∧
    Cond.neg (.simple (.REG "a" "") "==" (.REG "b" "")) =
      some (.simple (.REG "a" "") "!=" (.REG "b" "")) :=
  ⟨C2_neg_involutive.1 exCond (by decide),
   C2_neg_involutive.2.1 (.REG "a" "") (.REG "b" "") "==" "!=" rfl⟩

/-- Claim C3: instruction equality compares exactly the operator tag,
the destination and the ordered argument list; the source address and
the annotation mapping are excluded, so instructions differing only in
those (for example only one carrying a provenance annotation) compare
equal. -/
theorem C3_inst_equality :
    (∀ dest op args addr addr' cm cm',
      instEq ⟨dest, op, args, addr, cm⟩ ⟨dest, op, args, addr', cm'⟩ = true) ∧
    (∀ i1 i2 : Inst, instEq i1 i2 =
      (i1.op == i2.op && pyOptEq i1.dest i2.dest && argsEq i1.args i2.args)) := by
  refine ⟨fun dest op args addr addr' cm cm' => ?_, fun i1 i2 => rfl⟩
  simp [instEq, pyOptEq_refl, argsEq_refl]

/-- Claim C4: the order on `Register` expressions is exactly the
natural order of their names — split the name into alternating
non-digit/digit runs and compare digit runs numerically; in particular
`Register("r2") < Register("r10")` even though `"r10"` precedes `"r2"`
lexically. -/
theorem C4_natural_order :
    (∀ n c n' c', pyLt (.REG n c) (.REG n' c') =
      pyListLt (natKey n) (natKey n')) ∧
    natKey "r2" = [.txt "r", .num 2, .txt ""] ∧
    natKey "r10" = [.txt "r", .num 10, .txt ""] ∧
    pyLt (.REG "r2" "") (.REG "r10" "") = some true ∧
    ("r10".data < "r2".data) := by
  refine ⟨fun _ _ _ _ => rfl, by decide, by decide, by decide, by decide⟩

/-- Claim C5: for an instruction whose operator begins with a non-letter
character and which has exactly two arguments, the canonical rendering
is the compound-assignment form `dest op= args[1]` when the destination
compares equal to `args[0]`, and `dest = args[0] op args[1]` otherwise
(stated without a provenance annotation, whose leading comment is
claim C6's subject). -/
theorem C5_infix_rendering (d : Expr) (a b : Arg) (op : String)
    (addr : Option String) (cm : List (String × String)) (c0 : Char)
    (cs : List Char) (hop : op.data = c0 :: cs) (halpha : c0.isAlpha = false)
    (hann : lookupAnn "org_inst" cm = none) :
    (pyEqOptArg (some d) a = true →
      Inst.str? ⟨some d, op, [a, b], addr, cm⟩ =
        some (exprStr d ++ " " ++ op ++ "= " ++ argStr b)) ∧
    (pyEqOptArg (some d) a = false →
      Inst.str? ⟨some d, op, [a, b], addr, cm⟩ =
        some (exprStr d ++ " = " ++ argStr a ++ " " ++ op ++ " " ++ argStr b)) := by
  obtain ⟨h1, h2, h3, h4, h5, h6⟩ := op_ne_of_nonalpha op c0 cs hop halpha
  constructor <;> intro hcase <;>
    simp [Inst.str?, beq_iff_eq, h1, h2, h3, h4, h5, hann, hop, halpha,
      hcase, optDestStr]

/-- Witness for C5: `x += y` and `x = y + z` at concrete instructions. -/
theorem C5_infix_rendering_witness :
    Inst.str? ⟨some (.REG "a0" ""), "+",
      [.expr (.REG "a0" ""), .expr (.VALUE 1 16 "")], none, []⟩ =
      some "$a0 += 0x1" ∧
    Inst.str? ⟨some (.REG "a0" ""), "+",
      [.expr (.REG "a1" ""), .expr (.VALUE 1 16 "")], none, []⟩ =
      some "$a0 = $a1 + 0x1" :=
  ⟨((C5_infix_rendering (.REG "a0" "") (.expr (.REG "a0" ""))
      (.expr (.VALUE 1 16 "")) "+" none [] '+' [] rfl (by decide) rfl).1
      (by decide)).trans (by decide),
   ((C5_infix_rendering (.REG "a0" "") (.expr (.REG "a1" ""))
      (.expr (.VALUE 1 16 "")) "+" none [] '+' [] rfl (by decide) rfl).2
      (by decide)).trans (by decide)⟩

/-- Claim C6 as stated is false at an explicit input: a `LIT`
instruction carrying the reserved provenance annotation renders as its
sole argument only — `Inst.__str__` (core.py line 171-172) returns the
`LIT` text before ever looking at `org_inst`, so the rendering does not
begin with the comment line. -/
theorem C6_counterexample :
    Inst.str? ⟨none, "LIT", [.txt "nop"], none, [("org_inst", "orig")]⟩ =
      some "nop" ∧
    strBegins ("// " ++ "orig" ++ "\n") "nop" = false :=
  ⟨rfl, by decide⟩

/-- Claim C6 (amended): for every operator kind EXCEPT `LIT`, a present
`org_inst` annotation makes the canonical rendering begin with that
annotation as a leading comment line; a `LIT` instruction instead
renders as its sole argument verbatim, without the comment. -/
theorem C6_leading_comment (i : Inst) (v s : String)
    (hann : lookupAnn "org_inst" i.comments = some v)
    (hop : i.op ≠ "LIT") (hs : Inst.str? i = some s) :
    strBegins ("// " ++ v ++ "\n") s = true := by
  simp only [Inst.str?, beq_iff_eq, hop, if_false, hann] at hs
  repeat' split at hs
  all_goals
    first
    | exact Option.noConfusion hs
    | (injection hs with hs; subst hs;
       repeat'
         first
         | exact strBegins_append _ _
         | apply strBegins_extend)

/-- Witness for C6 (amended): a `return` instruction with a provenance
annotation renders with the leading comment line. -/
theorem C6_leading_comment_witness :
    strBegins ("// " ++ "x = 1" ++ "\n") "// x = 1\nreturn" = true :=
  C6_leading_comment ⟨none, "return", [], none, [("org_inst", "x = 1")]⟩
    "x = 1" "// x = 1\nreturn" rfl (by decide) rfl

/-- The basic block of the dump example: address `blk2`, one `return`
instruction. -/
def exBlock : BBlock := ⟨"blk2", [⟨none, "return", [], none, []⟩]⟩

/-- The dump example graph: nodes `blk10` (stored first, no block
payload) and `blk2` (DFS number 1), edges `blk2 → blk10` with condition
`(r1 == 0)` and `blk10 → blk2` without a condition, so each node has
one predecessor and one successor. -/
def exGraph : Graph :=
  ⟨[⟨"blk10", none, none⟩, ⟨"blk2", some exBlock, some 1⟩],
   [("blk2", "blk10", some "(r1 == 0)"), ("blk10", "blk2", none)]⟩

/-- Claim C7: the debug dump of the example graph — one entry per node,
`blk2`'s entry strictly before `blk10`'s (natural-sort order of
addresses, not lexical), a blank line between entries, each entry made
of the sorted-predecessor line, the DFS line when that annotation is
present, the `addr:` label, the block's instructions (or the
placeholder when the node has no block payload), and the Exits line
pairing each successor in native order with its edge condition; in
particular `blk2`'s Exits line shows `[('(r1 == 0)', 'blk10')]`. -/
theorem C7_dump_example :
    dumpBBlocks exGraph = some (
      "// Predecessors: [" ++ pyStrRepr "blk10" ++ "]\n" ++
      "// DFS#: 1\n" ++
      "blk2:\n" ++
      "return\n" ++
      "Exits: [(" ++ pyStrRepr "(r1 == 0)" ++ ", " ++ pyStrRepr "blk10" ++ ")]\n" ++
      "\n" ++
      "// Predecessors: [" ++ pyStrRepr "blk2" ++ "]\n" ++
      "blk10:\n" ++
      "    None\n" ++
      "Exits: [(None, " ++ pyStrRepr "blk2" ++ ")]\n") := by
  decide

/-- Claim C8: rendering an infix instruction (operator starting with a
non-letter character) whose argument count is not 2 fails at the point
of violation (the `assert len(args) == 2`, core.py line 190) instead of
producing output. -/
theorem C8_infix_arity_fail (i : Inst) (c0 : Char) (cs : List Char)
    (hop : i.op.data = c0 :: cs) (halpha : c0.isAlpha = false)
    (hlen : i.args.length ≠ 2) :
    Inst.str? i = none := by
  obtain ⟨h1, h2, h3, h4, h5, h6⟩ := op_ne_of_nonalpha i.op c0 cs hop halpha
  simp [Inst.str?, beq_iff_eq, h1, h2, h3, h4, h5, hop, halpha]
  split
  · exfalso; apply hlen; rename_i heq; rw [heq]; rfl
  · rfl

/-- Witness for C8: a one-argument `+` instruction fails to render. -/
theorem C8_infix_arity_fail_witness :
    Inst.str? ⟨some (.REG "a" ""), "+", [.expr (.REG "b" "")], none, []⟩ =
      none :=
  C8_infix_arity_fail ⟨some (.REG "a" ""), "+", [.expr (.REG "b" "")], none, []⟩
    '+' [] rfl (by decide) (by decide)

/-- Claim C9 as stated is false at an explicit input: a `SyntheticFunc`
expression carrying the (non-empty) annotation tag `@` renders as
`(SFUNC)f` and `f` — neither rendering begins with the tag, because
`SFUNC.__repr__`/`__str__` (core.py lines 138-142) never consult
`self.comment`. -/
theorem C9_counterexample :
    exprRepr (.SFUNC "f" "@" 0) = "(SFUNC)f" ∧
    exprStr (.SFUNC "f" "@" 0) = "f" ∧
    strBegins "@" "(SFUNC)f" = false ∧
    strBegins "@" "f" = false :=
  ⟨rfl, rfl, by decide, by decide⟩

/-- Claim C9 (amended): every expression carries the free-form
annotation tag (default empty), and both textual renderings of a
`Register`, `Value`, `Address` or `MemoryRef` expression begin with that
tag; the `SyntheticFunc` renderings ignore the tag entirely. -/
theorem C9_comment_tag :
    (∀ n c, strBegins c (exprStr (.REG n c)) = true ∧
      strBegins c (exprRepr (.REG n c)) = true) ∧
    (∀ v b c, strBegins c (exprStr (.VALUE v b c)) = true ∧
      strBegins c (exprRepr (.VALUE v b c)) = true) ∧
    (∀ a c, strBegins c (exprStr (.ADDR a c)) = true ∧
      strBegins c (exprRepr (.ADDR a c)) = true) ∧
    (∀ t b o c, strBegins c (exprStr (.MEM t b o c)) = true ∧
      strBegins c (exprRepr (.MEM t b o c)) = true) ∧
    (∀ n c i, exprStr (.SFUNC n c i) = n ∧
      exprRepr (.SFUNC n c i) = "(SFUNC)" ++ n) := by
  refine ⟨fun n c => ⟨?_, ?_⟩, fun v b c => ⟨?_, ?_⟩, fun a c => ⟨?_, ?_⟩,
    fun t b o c => ⟨?_, ?_⟩, fun n c i => ⟨rfl, rfl⟩⟩ <;>
    simp only [exprStr, exprRepr] <;>
    first
    | (split <;> repeat'
        first
        | exact strBegins_append _ _
        | apply strBegins_extend)
    | (repeat'
        first
        | exact strBegins_append _ _
        | apply strBegins_extend)

/-- Claim C10: the diagnostic rendering does not mutate the
instruction — the returned post-state is the receiver itself, the
provenance annotation is still present afterwards (the renderer pops it
only from a copy of the mapping), and rendering twice produces the same
text. -/
theorem C10_repr_pure (i : Inst) :
    (Inst.reprRun i).2 = i ∧
    lookupAnn "org_inst" (Inst.reprRun i).2.comments =
      lookupAnn "org_inst" i.comments ∧
    (Inst.reprRun (Inst.reprRun i).2).1 = (Inst.reprRun i).1 := by
  have h2 : (Inst.reprRun i).2 = i := by
    unfold Inst.reprRun
    dsimp only
    split <;> rfl
  exact ⟨h2, by rw [h2], by rw [h2]⟩

end SAB
